import Mathlib

/-!
A shallow embedding of the `quizlr-core` quiz engine
(`src/quizlr-core/src/quiz/{question,quiz_impl,session,scoring}.rs`),
with theorems checking the natural-language specification against it.

Modelling conventions:
* `Uuid` is modelled as `Nat`; `DateTime<Utc>` instants and `chrono::Duration`
  as `Int` (seconds); every operation that calls `Utc::now()` in the source
  takes the current instant as an explicit `now : Int` argument.
* `u32` / `usize` are modelled as `Nat` (overflow is out of scope for the
  properties below); `Vec<T>` as `List T`.
* `f32` is modelled as `ℚ` with exact arithmetic.  A source division whose
  denominator is syntactically guarded (an `if d > 0` test, or a `.max(1)`
  on the denominator) is translated as plain `ℚ` division under the same
  guard.  A source division with no such guard is translated through `fdiv`,
  which returns `none` when the denominator is zero — the point where the
  f32 source produces a NaN or an infinity.
* `serde_json::Value` metadata maps are abstracted as `List (String × String)`;
  no operation below ever reads them.
* Rust methods taking `&mut self` and returning `Result` are translated as
  functions `State → ... → Except String α × State`, the second component
  being the state of `self` after the call (`self` unchanged on every error
  path of the source).
* `Vec::sort` (used on `Vec<usize>` and `Vec<(usize, usize)>`) is modelled by
  a structural insertion sort; on these types the order is total and
  antisymmetric, so any correct sort computes the same list.
* The `HashMap` that `scoring.rs` builds from `(q.id, q)` pairs resolves
  duplicate ids to the last inserted question, hence `question_lookup`
  searches the reversed list.
-/

namespace Quizlr

abbrev Uuid := Nat

abbrev Timestamp := Int

/-- `FollowUpRule` (question.rs:53-58). -/
structure FollowUpRule where
  condition : String
  follow_up_question : String
  weight : ℚ
deriving DecidableEq

/-- `QuestionType` (question.rs:6-51). -/
inductive QuestionType where
  | TrueFalse (statement : String) (correct_answer : Bool) (explanation : Option String)
  | MultipleChoice (question : String) (options : List String) (correct_index : Nat)
      (explanation : Option String)
  | MultiSelect (question : String) (options : List String) (correct_indices : List Nat)
      (explanation : Option String)
  | FillInTheBlank (template : String) (correct_answers : List String) (case_sensitive : Bool)
      (explanation : Option String)
  | MatchPairs (instruction : String) (left_items : List String) (right_items : List String)
      (correct_pairs : List (Nat × Nat)) (explanation : Option String)
  | InteractiveInterview (topic : String) (initial_question : String)
      (follow_up_rules : List FollowUpRule) (comprehension_threshold : ℚ)
  | TopicExplanation (topic : String) (prompt : String) (key_concepts : List String)
      (min_word_count : Nat)
deriving DecidableEq

/-- `Citation` (question.rs:74-81). -/
structure Citation where
  id : Uuid
  source : String
  url : Option String
  excerpt : Option String
  confidence : ℚ
deriving DecidableEq

/-- `Question` (question.rs:60-72). -/
structure Question where
  id : Uuid
  question_type : QuestionType
  topic_id : Uuid
  difficulty : ℚ
  estimated_time_seconds : Nat
  tags : List String
  citations : List Citation
  metadata : List (String × String)
  created_at : Timestamp
  updated_at : Timestamp
deriving DecidableEq

/-- `Answer` (question.rs:83-99). -/
inductive Answer where
  | TrueFalse (value : Bool)
  | MultipleChoice (index : Nat)
  | MultiSelect (indices : List Nat)
  | FillInTheBlank (values : List String)
  | MatchPairs (pairs : List (Nat × Nat))
  | InteractiveResponse (responses : List String) (time_taken_seconds : Nat)
  | TopicExplanation (explanation : String) (time_taken_seconds : Nat)
deriving DecidableEq

/-- `Vec::<usize>::sort` (ascending).  On a total antisymmetric order any
correct sort computes the same list, so insertion sort models it exactly. -/
def sortNat (l : List Nat) : List Nat :=
  List.insertionSort (fun a b => a ≤ b) l

/-- Lexicographic order on index pairs, the order `Vec::<(usize, usize)>::sort`
sorts by. -/
def pairLe (a b : Nat × Nat) : Prop :=
  a.1 < b.1 ∨ (a.1 = b.1 ∧ a.2 ≤ b.2)

instance (a b : Nat × Nat) : Decidable (pairLe a b) := by
  unfold pairLe
  infer_instance

/-- `Vec::<(usize, usize)>::sort`. -/
def sortPairs (l : List (Nat × Nat)) : List (Nat × Nat) :=
  List.insertionSort pairLe l

/-- `Question::validate_answer` (question.rs:118-189). -/
def validate_answer (q : Question) (answer : Answer) : Except String Bool :=
  match q.question_type, answer with
  | QuestionType.TrueFalse _ correct_answer _, Answer.TrueFalse user_answer =>
      Except.ok (correct_answer == user_answer)
  | QuestionType.MultipleChoice _ options correct_index _, Answer.MultipleChoice user_index =>
      if options.length ≤ user_index then
        Except.error "Invalid option index"
      else
        Except.ok (correct_index == user_index)
  | QuestionType.MultiSelect _ options correct_indices _, Answer.MultiSelect user_indices =>
      if user_indices.any (fun idx => decide (options.length ≤ idx)) then
        Except.error "Invalid option index"
      else
        Except.ok (sortNat user_indices == sortNat correct_indices)
  | QuestionType.FillInTheBlank _ correct_answers case_sensitive _,
      Answer.FillInTheBlank user_answers =>
      if user_answers.length ≠ correct_answers.length then
        Except.error "Wrong number of answers"
      else
        Except.ok ((user_answers.zip correct_answers).all
          (fun uc => if case_sensitive then uc.1 == uc.2 else uc.1.toLower == uc.2.toLower))
  | QuestionType.MatchPairs _ _ _ correct_pairs _, Answer.MatchPairs user_pairs =>
      Except.ok (sortPairs user_pairs == sortPairs correct_pairs)
  | _, _ => Except.error "Answer type does not match question type"

/-- `SessionState` (session.rs:7-14). -/
inductive SessionState where
  | NotStarted
  | InProgress
  | Paused
  | Completed
  | Abandoned
deriving DecidableEq

/-- `QuestionResponse` (session.rs:32-40). -/
structure QuestionResponse where
  question_id : Uuid
  answer : Answer
  is_correct : Bool
  time_taken_seconds : Nat
  attempts : Nat
  submitted_at : Timestamp
deriving DecidableEq

/-- `QuizSession` (session.rs:16-30). -/
structure QuizSession where
  id : Uuid
  quiz_id : Uuid
  user_id : Option Uuid
  state : SessionState
  current_question_index : Nat
  responses : List QuestionResponse
  skipped_questions : List Nat
  start_time : Option Timestamp
  end_time : Option Timestamp
  pause_duration : Int
  last_activity : Timestamp
  metadata : List (String × String)
deriving DecidableEq

/-- `QuizSession::start` (session.rs:60-70). -/
def start (s : QuizSession) (now : Timestamp) : Except String Unit × QuizSession :=
  match s.state with
  | SessionState.NotStarted =>
      (Except.ok (), { s with
        state := SessionState.InProgress
        start_time := some now
        last_activity := now })
  | _ => (Except.error "Session already started", s)

/-- `QuizSession::pause` (session.rs:72-81). -/
def pause (s : QuizSession) (now : Timestamp) : Except String Unit × QuizSession :=
  match s.state with
  | SessionState.InProgress =>
      (Except.ok (), { s with
        state := SessionState.Paused
        last_activity := now })
  | _ => (Except.error "Can only pause an in-progress session", s)

/-- `QuizSession::resume` (session.rs:83-94). -/
def resume (s : QuizSession) (now : Timestamp) : Except String Unit × QuizSession :=
  match s.state with
  | SessionState.Paused =>
      (Except.ok (), { s with
        pause_duration := s.pause_duration + (now - s.last_activity)
        state := SessionState.InProgress
        last_activity := now })
  | _ => (Except.error "Can only resume a paused session", s)

/-- The in-place update performed by `iter_mut().find(...)` in
`QuizSession::submit_answer` (session.rs:109-117): the first response whose
`question_id` matches is overwritten, the rest of the list is untouched. -/
def updateFirstResponse (qid : Uuid) (a : Answer) (c : Bool) (t : Nat) (now : Timestamp) :
    List QuestionResponse → List QuestionResponse
  | [] => []
  | r :: rest =>
      if r.question_id = qid then
        { r with
          attempts := r.attempts + 1
          answer := a
          is_correct := c
          time_taken_seconds := r.time_taken_seconds + t
          submitted_at := now } :: rest
      else
        r :: updateFirstResponse qid a c t now rest

/-- `QuizSession::submit_answer` (session.rs:96-131). -/
def submit_answer (s : QuizSession) (q : Question) (a : Answer) (time_taken_seconds : Nat)
    (now : Timestamp) : Except String Bool × QuizSession :=
  if s.state ≠ SessionState.InProgress then
    (Except.error "Session is not in progress", s)
  else
    match validate_answer q a with
    | Except.error e => (Except.error e, s)
    | Except.ok is_correct =>
        let responses :=
          if s.responses.any (fun r => decide (r.question_id = q.id)) then
            updateFirstResponse q.id a is_correct time_taken_seconds now s.responses
          else
            s.responses ++ [{
              question_id := q.id
              answer := a
              is_correct := is_correct
              time_taken_seconds := time_taken_seconds
              attempts := 1
              submitted_at := now }]
        (Except.ok is_correct, { s with responses := responses, last_activity := now })

/-- `QuizSession::skip_question` (session.rs:133-138); note: no state guard. -/
def skip_question (s : QuizSession) (question_index : Nat) (now : Timestamp) : QuizSession :=
  let s :=
    if s.skipped_questions.contains question_index then s
    else { s with skipped_questions := s.skipped_questions ++ [question_index] }
  { s with last_activity := now }

/-- `QuizSession::next_question` (session.rs:140-148). -/
def next_question (s : QuizSession) (now : Timestamp) : Except String Unit × QuizSession :=
  if s.state ≠ SessionState.InProgress then
    (Except.error "Session is not in progress", s)
  else
    (Except.ok (), { s with
      current_question_index := s.current_question_index + 1
      last_activity := now })

/-- `QuizSession::previous_question` (session.rs:150-162). -/
def previous_question (s : QuizSession) (now : Timestamp) : Except String Unit × QuizSession :=
  if s.state ≠ SessionState.InProgress then
    (Except.error "Session is not in progress", s)
  else if 0 < s.current_question_index then
    (Except.ok (), { s with
      current_question_index := s.current_question_index - 1
      last_activity := now })
  else
    (Except.error "Already at first question", s)

/-- `SessionSummary` (session.rs:235-247). -/
structure SessionSummary where
  session_id : Uuid
  quiz_id : Uuid
  score : ℚ
  correct_answers : Nat
  total_questions : Nat
  skipped_questions : Nat
  total_time_seconds : Nat
  duration : Int
  average_time_per_question : Nat
  completion_rate : ℚ
deriving DecidableEq

/-- `QuizSession::generate_summary` (session.rs:180-223). -/
def generate_summary (s : QuizSession) (now : Timestamp) : SessionSummary :=
  let total_questions := s.responses.length + s.skipped_questions.length
  let correct_answers := (s.responses.filter (fun r => r.is_correct)).length
  let total_time_seconds := (s.responses.map (fun r => r.time_taken_seconds)).sum
  let score : ℚ :=
    if 0 < total_questions then (correct_answers : ℚ) / (total_questions : ℚ) else 0
  let duration : Int :=
    match s.start_time, s.end_time with
    | some st, some en => en - st - s.pause_duration
    | some st, none => now - st - s.pause_duration
    | none, _ => 0
  { session_id := s.id
    quiz_id := s.quiz_id
    score := score
    correct_answers := correct_answers
    total_questions := total_questions
    skipped_questions := s.skipped_questions.length
    total_time_seconds := total_time_seconds
    duration := duration
    average_time_per_question :=
      if s.responses.length ≠ 0 then total_time_seconds / s.responses.length else 0
    completion_rate :=
      if 0 < total_questions then (s.responses.length : ℚ) / (total_questions : ℚ) else 0 }

/-- `QuizSession::complete` (session.rs:164-173): state and end time are set
before the summary is generated from the mutated session. -/
def complete (s : QuizSession) (now : Timestamp) : Except String SessionSummary × QuizSession :=
  match s.state with
  | SessionState.InProgress =>
      let s2 := { s with state := SessionState.Completed, end_time := some now }
      (Except.ok (generate_summary s2 now), s2)
  | _ => (Except.error "Can only complete an in-progress session", s)

/-- `QuizSession::abandon` (session.rs:175-178); note: no state guard, no error. -/
def abandon (s : QuizSession) (now : Timestamp) : QuizSession :=
  { s with state := SessionState.Abandoned, end_time := some now }

/-- `SessionSummary::passed` (session.rs:250-252). -/
def passed (summary : SessionSummary) (pass_threshold : ℚ) : Bool :=
  decide (pass_threshold ≤ summary.score)

/-- `SessionSummary::get_grade` (session.rs:254-262). -/
def get_grade (summary : SessionSummary) : String :=
  if (9 : ℚ)/10 ≤ summary.score then "A"
  else if (8 : ℚ)/10 ≤ summary.score then "B"
  else if (7 : ℚ)/10 ≤ summary.score then "C"
  else if (6 : ℚ)/10 ≤ summary.score then "D"
  else "F"

/-- `Quiz` (quiz_impl.rs:7-25). -/
structure Quiz where
  id : Uuid
  title : String
  description : Option String
  questions : List Question
  topic_ids : List Uuid
  difficulty_range : ℚ × ℚ
  estimated_duration_minutes : Nat
  pass_threshold : ℚ
  allow_skip : Bool
  show_explanations : Bool
  randomize_questions : Bool
  randomize_options : Bool
  tags : List String
  metadata : List (String × String)
  created_at : Timestamp
  updated_at : Timestamp
deriving DecidableEq

/-- `Quiz::update_difficulty_range` (quiz_impl.rs:72-88): the source folds
`f32::min` from 1.0 and `f32::max` from 0.0 over the question difficulties. -/
def update_difficulty_range (quiz : Quiz) : Quiz :=
  if quiz.questions.isEmpty then
    { quiz with difficulty_range := (0, 1) }
  else
    { quiz with difficulty_range :=
        ((quiz.questions.map (fun q => q.difficulty)).foldl min 1,
         (quiz.questions.map (fun q => q.difficulty)).foldl max 0) }

/-- `Quiz::update_estimated_duration` (quiz_impl.rs:90-97). -/
def update_estimated_duration (quiz : Quiz) : Quiz :=
  let total_seconds := (quiz.questions.map (fun q => q.estimated_time_seconds)).sum
  { quiz with estimated_duration_minutes := max (total_seconds / 60) 1 }

/-- `Quiz::add_question` (quiz_impl.rs:50-58). -/
def add_question (quiz : Quiz) (question : Question) (now : Timestamp) : Quiz :=
  let quiz :=
    if quiz.topic_ids.contains question.topic_id then quiz
    else { quiz with topic_ids := quiz.topic_ids ++ [question.topic_id] }
  let quiz := { quiz with questions := quiz.questions ++ [question] }
  let quiz := update_difficulty_range quiz
  let quiz := update_estimated_duration quiz
  { quiz with updated_at := now }

/-- The `position`-then-`remove` step of `Quiz::remove_question`
(quiz_impl.rs:61-62): remove the first question with the given id, returning
it together with the remaining list. -/
def removeFirstById : List Question → Uuid → Option (Question × List Question)
  | [], _ => none
  | q :: rest, question_id =>
      if q.id = question_id then some (q, rest)
      else
        match removeFirstById rest question_id with
        | none => none
        | some (removed, rest2) => some (removed, q :: rest2)

/-- `Quiz::remove_question` (quiz_impl.rs:60-70). -/
def remove_question (quiz : Quiz) (question_id : Uuid) (now : Timestamp) :
    Option Question × Quiz :=
  match removeFirstById quiz.questions question_id with
  | none => (none, quiz)
  | some (removed, rest) =>
      let quiz := { quiz with questions := rest }
      let quiz := update_difficulty_range quiz
      let quiz := update_estimated_duration quiz
      (some removed, { quiz with updated_at := now })

/-- `ScoreComponents` (scoring.rs:16-22). -/
structure ScoreComponents where
  correctness : ℚ
  speed : ℚ
  difficulty : ℚ
  consistency : ℚ
deriving DecidableEq

/-- `Score` (scoring.rs:5-14). -/
structure Score where
  raw_score : ℚ
  weighted_score : ℚ
  percentile : Option ℚ
  time_bonus : ℚ
  difficulty_bonus : ℚ
  streak_bonus : ℚ
  components : ScoreComponents
deriving DecidableEq

/-- `ScoringStrategy` (scoring.rs:24-42). -/
inductive ScoringStrategy where
  | Simple
  | TimeWeighted (base_time_seconds : Nat) (penalty_per_second : ℚ)
  | DifficultyWeighted (easy_multiplier medium_multiplier hard_multiplier : ℚ)
  | Adaptive (time_weight difficulty_weight streak_weight consistency_weight : ℚ)
deriving DecidableEq

/-- An f32 division the source performs with no guard on the denominator:
`none` marks the NaN/infinity the source produces at a zero denominator. -/
def fdiv (x y : ℚ) : Option ℚ :=
  if y = 0 then none else some (x / y)

/-- Lookup in the `HashMap` built from `(q.id, q)` pairs (scoring.rs:109-111);
on duplicate ids the last insertion wins, hence the reversed search. -/
def question_lookup (questions : List Question) (qid : Uuid) : Option Question :=
  questions.reverse.find? (fun q => decide (q.id = qid))

/-- `ScoringStrategy::simple_score` (scoring.rs:77-99). -/
def simple_score (session : QuizSession) (questions : List Question) : Score :=
  let total : ℚ := questions.length
  let correct : ℚ := (session.responses.filter (fun r => r.is_correct)).length
  let raw_score := if 0 < total then correct / total else 0
  { raw_score := raw_score
    weighted_score := raw_score
    percentile := none
    time_bonus := 0
    difficulty_bonus := 0
    streak_bonus := 0
    components :=
      { correctness := raw_score, speed := 0, difficulty := 0, consistency := 0 } }

/-- `ScoringStrategy::time_weighted_score` (scoring.rs:101-144). -/
def time_weighted_score (session : QuizSession) (questions : List Question)
    (base_time_seconds : Nat) (penalty_per_second : ℚ) : Score :=
  let total_score : ℚ := (session.responses.map (fun r =>
      match question_lookup questions r.question_id with
      | some _ =>
          let base_points : ℚ := if r.is_correct then 1 else 0
          let time_penalty : ℚ :=
            if base_time_seconds < r.time_taken_seconds then
              ((r.time_taken_seconds - base_time_seconds : Nat) : ℚ) * penalty_per_second
            else 0
          max (base_points - time_penalty) 0
      | none => 0)).sum
  let max_score : ℚ := questions.length
  let weighted_score := if 0 < max_score then total_score / max_score else 0
  let raw := (simple_score session questions).raw_score
  { raw_score := raw
    weighted_score := weighted_score
    percentile := none
    time_bonus := weighted_score - raw
    difficulty_bonus := 0
    streak_bonus := 0
    components :=
      { correctness := raw, speed := weighted_score - raw, difficulty := 0, consistency := 0 } }

/-- The difficulty bucketing of scoring.rs:162-166 and 178-182. -/
def bucket_multiplier (difficulty easy_multiplier medium_multiplier hard_multiplier : ℚ) : ℚ :=
  if difficulty < 33/100 then easy_multiplier
  else if difficulty < 67/100 then medium_multiplier
  else hard_multiplier

/-- `ScoringStrategy::difficulty_weighted_score` (scoring.rs:146-203). -/
def difficulty_weighted_score (session : QuizSession) (questions : List Question)
    (easy_multiplier medium_multiplier hard_multiplier : ℚ) : Score :=
  let total_score : ℚ := (session.responses.map (fun r =>
      match question_lookup questions r.question_id with
      | some q =>
          if r.is_correct then
            bucket_multiplier q.difficulty easy_multiplier medium_multiplier hard_multiplier
          else 0
      | none => 0)).sum
  let responded_max : ℚ := (session.responses.map (fun r =>
      match question_lookup questions r.question_id with
      | some q => bucket_multiplier q.difficulty easy_multiplier medium_multiplier hard_multiplier
      | none => 0)).sum
  let skipped_max : ℚ := (session.skipped_questions.map (fun i =>
      match questions[i]? with
      | some q => bucket_multiplier q.difficulty easy_multiplier medium_multiplier hard_multiplier
      | none => 0)).sum
  let max_possible := responded_max + skipped_max
  let weighted_score := if 0 < max_possible then total_score / max_possible else 0
  let raw := (simple_score session questions).raw_score
  { raw_score := raw
    weighted_score := weighted_score
    percentile := none
    time_bonus := 0
    difficulty_bonus := weighted_score - raw
    streak_bonus := 0
    components :=
      { correctness := raw, speed := 0, difficulty := weighted_score - raw, consistency := 0 } }

/-- `ScoringStrategy::calculate_difficulty_score` (scoring.rs:262-284). -/
def calculate_difficulty_score (session : QuizSession) (questions : List Question) : ℚ :=
  let difficulty_sum : ℚ := (session.responses.map (fun r =>
      match question_lookup questions r.question_id with
      | some q => q.difficulty
      | none => 0)).sum
  let correct_difficulty_sum : ℚ := (session.responses.map (fun r =>
      match question_lookup questions r.question_id with
      | some q => if r.is_correct then q.difficulty else 0
      | none => 0)).sum
  if 0 < difficulty_sum then correct_difficulty_sum / difficulty_sum else 0

/-- The loop of `ScoringStrategy::calculate_streak_score` (scoring.rs:291-301):
the accumulator is `(max_streak, current_streak)`. -/
def streak_step (acc : Nat × Nat) (r : QuestionResponse) : Nat × Nat :=
  if r.is_correct then (max acc.1 (acc.2 + 1), acc.2 + 1) else (acc.1, 0)

/-- `ScoringStrategy::calculate_streak_score` (scoring.rs:286-304). -/
def calculate_streak_score (responses : List QuestionResponse) : ℚ :=
  if responses.isEmpty then 0
  else ((responses.foldl streak_step (0, 0)).1 : ℚ) / (responses.length : ℚ)

/-- `ScoringStrategy::calculate_consistency_score` (scoring.rs:306-326).
The division `std_dev / mean_time` has no zero guard in the source: when every
response time is 0 the mean is 0 and the f32 source computes `cv = 0.0/0.0 =
NaN`, which `(1.0 / (1.0 + cv)).min(1.0)` then maps to exactly `1.0` (Rust
`f32::min` returns the non-NaN argument).  The `mean_time = 0` branch below
reproduces that final value; the unguarded division itself is exhibited
separately through `consistency_cv` / `fdiv`. -/
def calculate_consistency_score (responses : List QuestionResponse) : ℚ :=
  if responses.length < 2 then 1
  else
    let times : List ℚ := responses.map (fun r => (r.time_taken_seconds : ℚ))
    let mean_time := times.sum / (times.length : ℚ)
    let variance := (times.map (fun t => (t - mean_time) ^ 2)).sum / (times.length : ℚ)
    let std_dev := Rat.sqrt variance
    if mean_time = 0 then 1
    else min (1 / (1 + std_dev / mean_time)) 1

/-- The coefficient of variation `cv = std_dev / mean_time` of
scoring.rs:321-322, computed through the unguarded-division model `fdiv`. -/
def consistency_cv (responses : List QuestionResponse) : Option ℚ :=
  let times : List ℚ := responses.map (fun r => (r.time_taken_seconds : ℚ))
  let mean_time := times.sum / (times.length : ℚ)
  let variance := (times.map (fun t => (t - mean_time) ^ 2)).sum / (times.length : ℚ)
  fdiv (Rat.sqrt variance) mean_time

/-- `ScoringStrategy::adaptive_score` (scoring.rs:205-260).  Every division
except the final one is guarded in the source (`.max(1)` / `.max(1.0)` on the
denominator); the final combination divides by `1.0 + total_weight` with no
guard, modelled by `fdiv`. -/
def adaptive_score (session : QuizSession) (questions : List Question)
    (time_weight difficulty_weight streak_weight consistency_weight : ℚ) : Option Score :=
  let total_weight := time_weight + difficulty_weight + streak_weight + consistency_weight
  let correctness_score := (simple_score session questions).raw_score
  let avg_time : ℚ :=
    (session.responses.map (fun r => (r.time_taken_seconds : ℚ))).sum /
      ((max session.responses.length 1 : Nat) : ℚ)
  let expected_avg_time : ℚ :=
    (questions.map (fun q => (q.estimated_time_seconds : ℚ))).sum /
      ((max questions.length 1 : Nat) : ℚ)
  let time_score := min (expected_avg_time / max avg_time 1) 1
  let difficulty_score := calculate_difficulty_score session questions
  let streak_score := calculate_streak_score session.responses
  let consistency_score := calculate_consistency_score session.responses
  match fdiv
      (correctness_score * 1 + time_score * time_weight +
        difficulty_score * difficulty_weight + streak_score * streak_weight +
        consistency_score * consistency_weight)
      (1 + total_weight) with
  | none => none
  | some weighted_score =>
      some { raw_score := correctness_score
             weighted_score := weighted_score
             percentile := none
             time_bonus := time_score * time_weight
             difficulty_bonus := difficulty_score * difficulty_weight
             streak_bonus := streak_score * streak_weight
             components :=
               { correctness := correctness_score
                 speed := time_score
                 difficulty := difficulty_score
                 consistency := consistency_score } }

/-- `ScoringStrategy::calculate_score` (scoring.rs:45-75).  The three total
strategies are wrapped in `some`; `none` can arise only from the unguarded
division inside `adaptive_score`. -/
def calculate_score (strategy : ScoringStrategy) (session : QuizSession)
    (questions : List Question) : Option Score :=
  match strategy with
  | ScoringStrategy.Simple => some (simple_score session questions)
  | ScoringStrategy.TimeWeighted base_time_seconds penalty_per_second =>
      some (time_weighted_score session questions base_time_seconds penalty_per_second)
  | ScoringStrategy.DifficultyWeighted e m h =>
      some (difficulty_weighted_score session questions e m h)
  | ScoringStrategy.Adaptive tw dw sw cw =>
      adaptive_score session questions tw dw sw cw

/-- `responses.iter().find(|r| r.question_id == qid)`: the session's stored
response for a question id, if any. -/
def findResponse (rs : List QuestionResponse) (qid : Uuid) : Option QuestionResponse :=
  rs.find? (fun r => decide (r.question_id = qid))

/-- Number of stored responses carrying a given question id. -/
def countResponses (rs : List QuestionResponse) (qid : Uuid) : Nat :=
  (rs.filter (fun r => decide (r.question_id = qid))).length

/-- The denominators of `calculate_score` that the source leaves unguarded
are nonzero: restricts only the `Adaptive` strategy, whose final combination
divides by `1.0 + total_weight`. -/
def strategy_denominator_ok : ScoringStrategy → Prop
  | ScoringStrategy.Adaptive tw dw sw cw => 1 + (tw + dw + sw + cw) ≠ 0
  | _ => True

/-- The documented domain of `Question.difficulty` (question.rs:65: "0.0 to 1.0"). -/
def in_unit_range (q : Question) : Prop :=
  0 ≤ q.difficulty ∧ q.difficulty ≤ 1

/-- Spec-side reading of the derived-range invariant: `difficulty_range` is
exactly `(min, max)` of the current question difficulties, `(0, 1)` when the
question list is empty. -/
def range_consistent (quiz : Quiz) : Prop :=
  if quiz.questions.isEmpty then quiz.difficulty_range = (0, 1)
  else
    (∀ q ∈ quiz.questions,
        quiz.difficulty_range.1 ≤ q.difficulty ∧ q.difficulty ≤ quiz.difficulty_range.2) ∧
    (∃ q ∈ quiz.questions, q.difficulty = quiz.difficulty_range.1) ∧
    (∃ q ∈ quiz.questions, q.difficulty = quiz.difficulty_range.2)

/-- A concrete true/false question (statement "Test", correct answer `true`). -/
def egQuestionTF : Question :=
  { id := 10
    question_type := QuestionType.TrueFalse "Test" true none
    topic_id := 5
    difficulty := 1/2
    estimated_time_seconds := 60
    tags := []
    citations := []
    metadata := []
    created_at := 0
    updated_at := 0 }

/-- A concrete interactive-interview question. -/
def egQuestionInterview : Question :=
  { egQuestionTF with
    id := 11
    question_type := QuestionType.InteractiveInterview "t" "q0" [] (1/2) }

/-- A concrete match-pairs question with one left/right item and one correct pair. -/
def egQuestionMP : Question :=
  { egQuestionTF with
    id := 12
    question_type := QuestionType.MatchPairs "match" ["a"] ["b"] [(0, 0)] none }

/-- A concrete multi-select question: options A..D, correct indices 0 and 2. -/
def egQuestionMS : Question :=
  { egQuestionTF with
    id := 13
    question_type := QuestionType.MultiSelect "pick" ["A", "B", "C", "D"] [0, 2] none }

/-- A fresh session, as built by `QuizSession::new`. -/
def egSessionNew : QuizSession :=
  { id := 1
    quiz_id := 2
    user_id := none
    state := SessionState.NotStarted
    current_question_index := 0
    responses := []
    skipped_questions := []
    start_time := none
    end_time := none
    pause_duration := 0
    last_activity := 0
    metadata := [] }

/-- A completed session. -/
def egSessionCompleted : QuizSession :=
  { egSessionNew with
    state := SessionState.Completed
    start_time := some 0
    end_time := some 100
    last_activity := 100 }

/-- An in-progress session with no responses. -/
def egSessionInProgress : QuizSession :=
  { egSessionNew with
    state := SessionState.InProgress
    start_time := some 0
    last_activity := 0 }

/-- A first (wrong) response to `egQuestionTF`, 20 seconds. -/
def egResponseWrong : QuestionResponse :=
  { question_id := 10
    answer := Answer.TrueFalse false
    is_correct := false
    time_taken_seconds := 20
    attempts := 1
    submitted_at := 50 }

/-- An in-progress session already holding `egResponseWrong`. -/
def egSessionWithResponse : QuizSession :=
  { egSessionInProgress with responses := [egResponseWrong] }

/-- An in-progress session with 2 answered (1 correct, times 30/45) and one
skipped question — the summary example of the specification. -/
def egSessionTwoPlusSkip : QuizSession :=
  { egSessionInProgress with
    responses :=
      [{ question_id := 20
         answer := Answer.TrueFalse true
         is_correct := true
         time_taken_seconds := 30
         attempts := 1
         submitted_at := 40 },
       { question_id := 21
         answer := Answer.TrueFalse false
         is_correct := false
         time_taken_seconds := 45
         attempts := 1
         submitted_at := 90 }]
    skipped_questions := [2] }

/-- A response with a zero time, for the mean-zero consistency path. -/
def egResponseZeroTime (qid : Uuid) : QuestionResponse :=
  { question_id := qid
    answer := Answer.TrueFalse true
    is_correct := true
    time_taken_seconds := 0
    attempts := 1
    submitted_at := 0 }

/-- An empty quiz, as built by `Quiz::new`. -/
def egQuizEmpty : Quiz :=
  { id := 100
    title := "Test Quiz"
    description := none
    questions := []
    topic_ids := []
    difficulty_range := (0, 1)
    estimated_duration_minutes := 30
    pass_threshold := 7/10
    allow_skip := true
    show_explanations := true
    randomize_questions := false
    randomize_options := false
    tags := []
    metadata := []
    created_at := 0
    updated_at := 0 }

/-- A question of difficulty 3/10 on topic 5. -/
def egQd3 : Question := { egQuestionTF with id := 31, difficulty := 3/10 }

/-- A question of difficulty 7/10 on topic 5. -/
def egQd7 : Question := { egQuestionTF with id := 32, difficulty := 7/10 }

/-- A quiz holding the two questions of difficulty 3/10 and 7/10. -/
def egQuizTwo : Quiz :=
  { egQuizEmpty with
    questions := [egQd3, egQd7]
    topic_ids := [5]
    difficulty_range := (3/10, 7/10) }

/-- A question of difficulty 5/10 on topic 5. -/
def egQd5 : Question := { egQuestionTF with id := 33, difficulty := 5/10 }

/-- A quiz holding only `egQd3`, whose topic id 5 is referenced by no other
question. -/
def egQuizOne : Quiz :=
  { egQuizEmpty with
    questions := [egQd3]
    topic_ids := [5]
    difficulty_range := (3/10, 3/10) }

/-- C1 counterexample: a Completed session is not left unchanged by every
state-machine operation.  `skip_question` (which has no state guard) still
appends to the skipped set and touches last-activity, and `abandon`
unconditionally moves the Completed session to Abandoned and overwrites its
end time.  So Completed is not terminal for these two operations. -/
theorem skip_and_abandon_mutate_completed_session :
    egSessionCompleted.state = SessionState.Completed ∧
    skip_question egSessionCompleted 0 200 ≠ egSessionCompleted ∧
    (skip_question egSessionCompleted 0 200).skipped_questions = [0] ∧
    abandon egSessionCompleted 200 ≠ egSessionCompleted ∧
    (abandon egSessionCompleted 200).state = SessionState.Abandoned ∧
    (abandon egSessionCompleted 200).end_time = some 200 := by
  refine ⟨rfl, ?_, rfl, ?_, rfl, rfl⟩ <;> decide

/-- C1 (amended): Completed and Abandoned are terminal for the guarded
operations only — start, pause, resume, submitAnswer, nextQuestion,
previousQuestion and complete each return an error and leave the session
unchanged when called on a Completed or Abandoned session; the unguarded
skipQuestion and abandon still mutate such a session. -/
theorem terminal_states_freeze_guarded_ops (s : QuizSession) (q : Question) (a : Answer)
    (t : Nat) (now : Timestamp)
    (h : s.state = SessionState.Completed ∨ s.state = SessionState.Abandoned) :
    (∃ e, (start s now).1 = Except.error e) ∧ (start s now).2 = s ∧
    (∃ e, (pause s now).1 = Except.error e) ∧ (pause s now).2 = s ∧
    (∃ e, (resume s now).1 = Except.error e) ∧ (resume s now).2 = s ∧
    (∃ e, (submit_answer s q a t now).1 = Except.error e) ∧ (submit_answer s q a t now).2 = s ∧
    (∃ e, (next_question s now).1 = Except.error e) ∧ (next_question s now).2 = s ∧
    (∃ e, (previous_question s now).1 = Except.error e) ∧ (previous_question s now).2 = s ∧
    (∃ e, (complete s now).1 = Except.error e) ∧ (complete s now).2 = s := by
  rcases h with h | h <;>
    simp [start, pause, resume, submit_answer, next_question, previous_question, complete, h]

/-- C1 witness: the amended theorem applied to a concrete Completed session. -/
theorem terminal_states_freeze_guarded_ops_witness :
    (start egSessionCompleted 200).2 = egSessionCompleted ∧
    (submit_answer egSessionCompleted egQuestionTF (Answer.TrueFalse true) 3 200).2
      = egSessionCompleted ∧
    (∃ e, (complete egSessionCompleted 200).1 = Except.error e) := by
  obtain ⟨-, h1, -, -, -, -, -, h2, -, -, -, -, h3, -⟩ :=
    terminal_states_freeze_guarded_ops egSessionCompleted egQuestionTF (Answer.TrueFalse true)
      3 200 (Or.inl rfl)
  exact ⟨h1, h2, h3⟩

/-- C2: every guarded operation invoked from a state its guard forbids — and
submitAnswer on an answer that fails validation — returns an error and leaves
every field of the session exactly as it was. -/
theorem guarded_ops_error_without_mutation (s : QuizSession) (q : Question) (a : Answer)
    (t : Nat) (now : Timestamp) :
    (s.state ≠ SessionState.NotStarted →
      (∃ e, (start s now).1 = Except.error e) ∧ (start s now).2 = s) ∧
    (s.state ≠ SessionState.InProgress →
      (∃ e, (pause s now).1 = Except.error e) ∧ (pause s now).2 = s) ∧
    (s.state ≠ SessionState.Paused →
      (∃ e, (resume s now).1 = Except.error e) ∧ (resume s now).2 = s) ∧
    (s.state ≠ SessionState.InProgress →
      (∃ e, (submit_answer s q a t now).1 = Except.error e) ∧
        (submit_answer s q a t now).2 = s) ∧
    ((∃ e, validate_answer q a = Except.error e) →
      (∃ e, (submit_answer s q a t now).1 = Except.error e) ∧
        (submit_answer s q a t now).2 = s) ∧
    (s.state ≠ SessionState.InProgress →
      (∃ e, (next_question s now).1 = Except.error e) ∧ (next_question s now).2 = s) ∧
    (s.state ≠ SessionState.InProgress →
      (∃ e, (previous_question s now).1 = Except.error e) ∧
        (previous_question s now).2 = s) ∧
    (s.state ≠ SessionState.InProgress →
      (∃ e, (complete s now).1 = Except.error e) ∧ (complete s now).2 = s) := by
  refine ⟨?_, ?_, ?_, ?_, ?_, ?_, ?_, ?_⟩
  · intro h
    cases hs : s.state <;> first
      | exact absurd hs h
      | simp [start, hs]
  · intro h
    cases hs : s.state <;> first
      | exact absurd hs h
      | simp [pause, hs]
  · intro h
    cases hs : s.state <;> first
      | exact absurd hs h
      | simp [resume, hs]
  · intro h
    simp [submit_answer, h]
  · rintro ⟨e, he⟩
    by_cases h : s.state = SessionState.InProgress
    · simp [submit_answer, h, he]
    · simp [submit_answer, h]
  · intro h
    simp [next_question, h]
  · intro h
    simp [previous_question, h]
  · intro h
    cases hs : s.state <;> first
      | exact absurd hs h
      | simp [complete, hs]

/-- C2 witness: a wrong-state call (pause on a fresh session) and a failed
validation (true/false question against a multiple-choice answer) both leave
the concrete session unchanged. -/
theorem guarded_ops_error_without_mutation_witness :
    ((∃ e, (pause egSessionNew 5).1 = Except.error e) ∧ (pause egSessionNew 5).2 = egSessionNew) ∧
    ((∃ e, (submit_answer egSessionInProgress egQuestionTF (Answer.MultipleChoice 0) 3 5).1
        = Except.error e) ∧
      (submit_answer egSessionInProgress egQuestionTF (Answer.MultipleChoice 0) 3 5).2
        = egSessionInProgress) := by
  refine ⟨?_, ?_⟩
  · exact (guarded_ops_error_without_mutation egSessionNew egQuestionTF (Answer.TrueFalse true)
      3 5).2.1 (by decide)
  · exact (guarded_ops_error_without_mutation egSessionInProgress egQuestionTF
      (Answer.MultipleChoice 0) 3 5).2.2.2.2.1 ⟨"Answer type does not match question type", rfl⟩

theorem findResponse_cons (r : QuestionResponse) (rest : List QuestionResponse) (qid : Uuid) :
    findResponse (r :: rest) qid =
      if r.question_id = qid then some r else findResponse rest qid := by
  by_cases h : r.question_id = qid <;> simp [findResponse, List.find?, h]

theorem any_eq_true_of_findResponse_some (rs : List QuestionResponse) (qid : Uuid)
    (r : QuestionResponse) (h : findResponse rs qid = some r) :
    rs.any (fun r2 => decide (r2.question_id = qid)) = true := by
  induction rs with
  | nil => simp [findResponse] at h
  | cons r0 rest ih =>
      rw [findResponse_cons] at h
      by_cases h0 : r0.question_id = qid
      · simp [h0]
      · rw [if_neg h0] at h
        simp [h0, ih h]

theorem any_eq_false_of_findResponse_none (rs : List QuestionResponse) (qid : Uuid)
    (h : findResponse rs qid = none) :
    rs.any (fun r2 => decide (r2.question_id = qid)) = false := by
  induction rs with
  | nil => rfl
  | cons r0 rest ih =>
      rw [findResponse_cons] at h
      by_cases h0 : r0.question_id = qid
      · rw [if_pos h0] at h
        cases h
      · rw [if_neg h0] at h
        simp [h0, ih h]

theorem countResponses_eq_zero_of_findResponse_none (rs : List QuestionResponse) (qid : Uuid)
    (h : findResponse rs qid = none) : countResponses rs qid = 0 := by
  induction rs with
  | nil => rfl
  | cons r0 rest ih =>
      rw [findResponse_cons] at h
      by_cases h0 : r0.question_id = qid
      · rw [if_pos h0] at h
        cases h
      · rw [if_neg h0] at h
        simp [countResponses, List.filter, h0] at ih ⊢
        exact ih h

theorem updateFirstResponse_length (qid : Uuid) (a : Answer) (c : Bool) (t : Nat)
    (now : Timestamp) (rs : List QuestionResponse) :
    (updateFirstResponse qid a c t now rs).length = rs.length := by
  induction rs with
  | nil => rfl
  | cons r0 rest ih =>
      by_cases h0 : r0.question_id = qid <;> simp [updateFirstResponse, h0, ih]

theorem updateFirstResponse_find (qid : Uuid) (a : Answer) (c : Bool) (t : Nat)
    (now : Timestamp) (rs : List QuestionResponse) (r : QuestionResponse)
    (h : findResponse rs qid = some r) :
    findResponse (updateFirstResponse qid a c t now rs) qid =
      some { r with
        attempts := r.attempts + 1
        answer := a
        is_correct := c
        time_taken_seconds := r.time_taken_seconds + t
        submitted_at := now } := by
  induction rs with
  | nil => simp [findResponse] at h
  | cons r0 rest ih =>
      rw [findResponse_cons] at h
      by_cases h0 : r0.question_id = qid
      · rw [if_pos h0] at h
        cases h
        simp [updateFirstResponse, h0, findResponse_cons]
      · rw [if_neg h0] at h
        rw [updateFirstResponse, if_neg h0, findResponse_cons, if_neg h0]
        exact ih h

theorem updateFirstResponse_filter (qid : Uuid) (a : Answer) (c : Bool) (t : Nat)
    (now : Timestamp) (rs : List QuestionResponse) (qid2 : Uuid) (hne : qid2 ≠ qid) :
    (updateFirstResponse qid a c t now rs).filter (fun r2 => decide (r2.question_id = qid2)) =
      rs.filter (fun r2 => decide (r2.question_id = qid2)) := by
  induction rs with
  | nil => rfl
  | cons r0 rest ih =>
      by_cases h0 : r0.question_id = qid
      · rw [updateFirstResponse, if_pos h0]
        have h2 : ¬ r0.question_id = qid2 := by
          rw [h0]
          exact fun h => hne h.symm
        rw [List.filter_cons, List.filter_cons]
        simp [h2]
      · rw [updateFirstResponse, if_neg h0]
        rw [List.filter_cons, List.filter_cons]
        by_cases h2 : r0.question_id = qid2 <;> simp [h2, ih]

theorem updateFirstResponse_count (qid : Uuid) (a : Answer) (c : Bool) (t : Nat)
    (now : Timestamp) (rs : List QuestionResponse) (qid2 : Uuid) :
    countResponses (updateFirstResponse qid a c t now rs) qid2 = countResponses rs qid2 := by
  induction rs with
  | nil => rfl
  | cons r0 rest ih =>
      unfold countResponses at ih ⊢
      by_cases h0 : r0.question_id = qid
      · rw [updateFirstResponse, if_pos h0]
        rw [List.filter_cons, List.filter_cons]
        by_cases h2 : r0.question_id = qid2 <;> simp [h2]
      · rw [updateFirstResponse, if_neg h0]
        rw [List.filter_cons, List.filter_cons]
        by_cases h2 : r0.question_id = qid2 <;> simp [h2, ih]

/-- C3: submitAnswer upserts by question id.  On an in-progress session with a
validated answer it returns the correctness flag; a first submission appends a
response with one attempt and the given time; a resubmission rewrites the
stored response in place — attempts incremented, answer and correctness
overwritten, the new time added to the cumulative time — leaving list length
and every other question id's responses untouched; and the at-most-one-
response-per-question-id bound is preserved. -/
theorem submit_answer_upserts_by_question_id (s : QuizSession) (q : Question) (a : Answer)
    (t : Nat) (now : Timestamp) (c : Bool)
    (hs : s.state = SessionState.InProgress) (hv : validate_answer q a = Except.ok c) :
    (submit_answer s q a t now).1 = Except.ok c ∧
    (findResponse s.responses q.id = none →
      (submit_answer s q a t now).2.responses =
        s.responses ++ [{
          question_id := q.id
          answer := a
          is_correct := c
          time_taken_seconds := t
          attempts := 1
          submitted_at := now }]) ∧
    (∀ r, findResponse s.responses q.id = some r →
      findResponse (submit_answer s q a t now).2.responses q.id =
        some { r with
          attempts := r.attempts + 1
          answer := a
          is_correct := c
          time_taken_seconds := r.time_taken_seconds + t
          submitted_at := now } ∧
      (submit_answer s q a t now).2.responses.length = s.responses.length ∧
      ∀ qid, qid ≠ q.id →
        (submit_answer s q a t now).2.responses.filter
            (fun r2 => decide (r2.question_id = qid)) =
          s.responses.filter (fun r2 => decide (r2.question_id = qid))) ∧
    (∀ qid, countResponses s.responses qid ≤ 1 →
      countResponses (submit_answer s q a t now).2.responses qid ≤ 1) := by
  refine ⟨?_, ?_, ?_, ?_⟩
  · simp [submit_answer, hs, hv]
  · intro hnone
    have hany := any_eq_false_of_findResponse_none s.responses q.id hnone
    simp [submit_answer, hs, hv, hany]
  · intro r hsome
    have hany := any_eq_true_of_findResponse_some s.responses q.id r hsome
    refine ⟨?_, ?_, ?_⟩
    · simp only [submit_answer, hs]
      simp [hv, hany, updateFirstResponse_find q.id a c t now s.responses r hsome]
    · simp only [submit_answer, hs]
      simp [hv, hany, updateFirstResponse_length]
    · intro qid hne
      simp only [submit_answer, hs]
      simp [hv, hany, updateFirstResponse_filter q.id a c t now s.responses qid hne]
  · intro qid hcount
    by_cases hany : s.responses.any (fun r2 => decide (r2.question_id = q.id)) = true
    · have hr : (submit_answer s q a t now).2.responses =
          updateFirstResponse q.id a c t now s.responses := by
        simp [submit_answer, hs, hv, hany]
      rw [hr, updateFirstResponse_count]
      exact hcount
    · have hany2 : s.responses.any (fun r2 => decide (r2.question_id = q.id)) = false := by
        simpa using hany
      have hr : (submit_answer s q a t now).2.responses = s.responses ++
          [{ question_id := q.id
             answer := a
             is_correct := c
             time_taken_seconds := t
             attempts := 1
             submitted_at := now }] := by
        simp [submit_answer, hs, hv, hany2]
      rcases hfind : findResponse s.responses q.id with _ | r
      · rw [hr]
        unfold countResponses at hcount ⊢
        rw [List.filter_append, List.length_append]
        by_cases hq : q.id = qid
        · subst hq
          have h0 : countResponses s.responses q.id = 0 :=
            countResponses_eq_zero_of_findResponse_none s.responses q.id hfind
          unfold countResponses at h0
          simp [h0, List.filter_cons]
        · simp [List.filter_cons, hq]
          exact hcount
      · exact absurd (any_eq_true_of_findResponse_some s.responses q.id r hfind)
          (by simp [hany2])

/-- C3 witness: the specification's resubmission example — wrong at 20 s then
correct at 15 s — yields one stored response with 2 attempts, 35 cumulative
seconds and a true correctness flag. -/
theorem submit_answer_upserts_by_question_id_witness :
    (submit_answer egSessionWithResponse egQuestionTF (Answer.TrueFalse true) 15 60).1 =
      Except.ok true ∧
    findResponse
        (submit_answer egSessionWithResponse egQuestionTF (Answer.TrueFalse true) 15 60).2.responses
        10 =
      some { egResponseWrong with
        attempts := 2
        answer := Answer.TrueFalse true
        is_correct := true
        time_taken_seconds := 35
        submitted_at := 60 } ∧
    (submit_answer egSessionWithResponse egQuestionTF (Answer.TrueFalse true) 15 60).2.responses.length
      = 1 := by
  obtain ⟨h1, -, h3, -⟩ :=
    submit_answer_upserts_by_question_id egSessionWithResponse egQuestionTF
      (Answer.TrueFalse true) 15 60 true rfl rfl
  obtain ⟨h4, h5, -⟩ := h3 egResponseWrong (by rfl)
  exact ⟨h1, h4, h5⟩

/-- C4: for a question whose variant is InteractiveInterview or
TopicExplanation, `validate_answer` returns an error on every answer value —
including the matching InteractiveResponse / TopicExplanation answer
variants — and never `Ok`. -/
theorem ungraded_variants_always_rejected (q : Question) (a : Answer)
    (h : (∃ topic iq rules thr,
            q.question_type = QuestionType.InteractiveInterview topic iq rules thr) ∨
         (∃ topic pr kcs mwc,
            q.question_type = QuestionType.TopicExplanation topic pr kcs mwc)) :
    ∃ e, validate_answer q a = Except.error e := by
  rcases h with ⟨topic, iq, rules, thr, hq⟩ | ⟨topic, pr, kcs, mwc, hq⟩ <;>
    cases a <;> simp [validate_answer, hq]

/-- C4 witness: a concrete interview question rejects even its own matching
answer variant. -/
theorem ungraded_variants_always_rejected_witness :
    ∃ e, validate_answer egQuestionInterview (Answer.InteractiveResponse ["hi"] 5) =
      Except.error e :=
  ungraded_variants_always_rejected egQuestionInterview
    (Answer.InteractiveResponse ["hi"] 5) (Or.inl ⟨"t", "q0", [], 1/2, rfl⟩)

theorem sortNat_perm (l : List Nat) : (sortNat l).Perm l :=
  List.perm_insertionSort (fun a b => a ≤ b) l

theorem sortNat_eq_of_perm (l1 l2 : List Nat) (h : l1.Perm l2) : sortNat l1 = sortNat l2 := by
  have hs1 : List.Sorted (fun a b : Nat => a ≤ b) (sortNat l1) :=
    List.sorted_insertionSort (fun a b : Nat => a ≤ b) l1
  have hs2 : List.Sorted (fun a b : Nat => a ≤ b) (sortNat l2) :=
    List.sorted_insertionSort (fun a b : Nat => a ≤ b) l2
  exact List.eq_of_perm_of_sorted
    ((sortNat_perm l1).trans (h.trans (sortNat_perm l2).symm)) hs1 hs2

theorem sortNat_eq_iff_perm (l1 l2 : List Nat) : sortNat l1 = sortNat l2 ↔ l1.Perm l2 := by
  constructor
  · intro h
    exact (sortNat_perm l1).symm.trans (h ▸ sortNat_perm l2)
  · exact sortNat_eq_of_perm l1 l2

/-- C5: MultiSelect validation errors with "Invalid option index" exactly when
some submitted index is out of bounds; an in-bounds submission is judged by
multiset equality with the correct indices (sorted-sequence comparison), and
the whole result is invariant under permutation of the submitted list. -/
theorem multiselect_bounds_and_perm_invariance (q : Question) (question : String)
    (options : List String) (correct_indices : List Nat) (expl : Option String)
    (u1 : List Nat)
    (hq : q.question_type = QuestionType.MultiSelect question options correct_indices expl) :
    (validate_answer q (Answer.MultiSelect u1) = Except.error "Invalid option index" ↔
      ∃ i ∈ u1, options.length ≤ i) ∧
    ((∀ i ∈ u1, i < options.length) →
      validate_answer q (Answer.MultiSelect u1) =
        Except.ok (decide (u1.Perm correct_indices))) ∧
    (∀ u2, u1.Perm u2 →
      validate_answer q (Answer.MultiSelect u1) = validate_answer q (Answer.MultiSelect u2)) := by
  refine ⟨?_, ?_, ?_⟩
  · by_cases hb : u1.any (fun idx => decide (options.length ≤ idx)) = true
    · simp only [validate_answer, hq, hb, if_true]
      simpa using List.any_eq_true.mp hb
    · rw [Bool.not_eq_true] at hb
      simp only [validate_answer, hq, hb, Bool.false_eq_true, if_false]
      constructor
      · intro h
        cases h
      · intro ⟨i, hi, hle⟩
        have hc : u1.any (fun idx => decide (options.length ≤ idx)) = true :=
          List.any_eq_true.mpr ⟨i, hi, by simpa using hle⟩
        rw [hc] at hb
        cases hb
  · intro hin
    have hb : u1.any (fun idx => decide (options.length ≤ idx)) = false := by
      rw [List.any_eq_false]
      intro i hi
      simpa using hin i hi
    simp only [validate_answer, hq, hb, Bool.false_eq_true, if_false, Except.ok.injEq]
    by_cases hp : u1.Perm correct_indices
    · rw [sortNat_eq_of_perm u1 correct_indices hp, decide_eq_true hp, beq_self_eq_true]
    · have hne : (sortNat u1 == sortNat correct_indices) = false := by
        rw [beq_eq_false_iff_ne]
        intro heq
        exact hp ((sortNat_eq_iff_perm u1 correct_indices).mp heq)
      rw [hne, decide_eq_false hp]
  · intro u2 hperm
    have hany : u1.any (fun idx => decide (options.length ≤ idx)) =
        u2.any (fun idx => decide (options.length ≤ idx)) := by
      by_cases h1 : u1.any (fun idx => decide (options.length ≤ idx)) = true
      · obtain ⟨x, hx, hpx⟩ := List.any_eq_true.mp h1
        rw [h1, List.any_eq_true.mpr ⟨x, hperm.mem_iff.mp hx, hpx⟩]
      · rw [Bool.not_eq_true] at h1
        rw [h1]
        rw [List.any_eq_false] at h1
        symm
        rw [List.any_eq_false]
        intro x hx
        exact h1 x (hperm.mem_iff.mpr hx)
    by_cases hb : u2.any (fun idx => decide (options.length ≤ idx)) = true
    · rw [hb] at hany
      simp only [validate_answer, hq, hb, hany, if_true]
    · rw [Bool.not_eq_true] at hb
      rw [hb] at hany
      simp only [validate_answer, hq, hb, hany, Bool.false_eq_true, if_false,
        Except.ok.injEq]
      rw [sortNat_eq_of_perm u1 u2 hperm]

/-- C5 witness: options A..D with correct indices 0 and 2 — submissions [2,0]
and [0,2] are both correct, and index 5 raises the bounds error. -/
theorem multiselect_bounds_and_perm_invariance_witness :
    validate_answer egQuestionMS (Answer.MultiSelect [2, 0]) = Except.ok true ∧
    validate_answer egQuestionMS (Answer.MultiSelect [0, 2]) = Except.ok true ∧
    validate_answer egQuestionMS (Answer.MultiSelect [5]) =
      Except.error "Invalid option index" := by
  obtain ⟨-, hok1, -⟩ := multiselect_bounds_and_perm_invariance egQuestionMS
    "pick" ["A", "B", "C", "D"] [0, 2] none [2, 0] rfl
  obtain ⟨-, hok2, -⟩ := multiselect_bounds_and_perm_invariance egQuestionMS
    "pick" ["A", "B", "C", "D"] [0, 2] none [0, 2] rfl
  obtain ⟨hiff, -, -⟩ := multiselect_bounds_and_perm_invariance egQuestionMS
    "pick" ["A", "B", "C", "D"] [0, 2] none [5] rfl
  refine ⟨?_, ?_, ?_⟩
  · rw [hok1 (by decide)]
    rw [show decide (([2, 0] : List Nat).Perm [0, 2]) = true from by decide]
  · rw [hok2 (by decide)]
    rw [show decide (([0, 2] : List Nat).Perm [0, 2]) = true from by decide]
  · exact hiff.mpr ⟨5, by decide, by decide⟩

/-- C10: MatchPairs validation never errors for a MatchPairs answer — pair
indices are not checked against the left/right item counts; the submitted
pairs are just sorted and compared with the correct pairs. -/
theorem matchpairs_never_errors (q : Question) (instr : String)
    (left_items right_items : List String) (correct_pairs : List (Nat × Nat))
    (expl : Option String) (user_pairs : List (Nat × Nat))
    (hq : q.question_type =
      QuestionType.MatchPairs instr left_items right_items correct_pairs expl) :
    validate_answer q (Answer.MatchPairs user_pairs) =
      Except.ok (sortPairs user_pairs == sortPairs correct_pairs) := by
  simp [validate_answer, hq]

/-- C10 witness: a pair list whose indices are far out of range for the single
left/right item still gets Ok(false), not an error. -/
theorem matchpairs_never_errors_witness :
    validate_answer egQuestionMP (Answer.MatchPairs [(5, 7)]) = Except.ok false := by
  rw [matchpairs_never_errors egQuestionMP "match" ["a"] ["b"] [(0, 0)] none [(5, 7)] rfl]
  rw [show (sortPairs [(5, 7)] == sortPairs [(0, 0)]) = false from by decide]

/-- C7: the session summary's fields are computed exactly as specified — count
identities, quotients that degrade to 0 on a zero denominator (`ℚ` and `ℕ`
division make this the unguarded quotient identity), independence from the
supplied clock except for the duration field, the grade ladder, and the
specification's concrete 2-answered-1-skipped example. -/
theorem summary_fields_as_specified (s : QuizSession) (now : Timestamp) :
    (generate_summary s now).total_questions =
      s.responses.length + s.skipped_questions.length ∧
    (generate_summary s now).correct_answers =
      (s.responses.filter (fun r => r.is_correct)).length ∧
    (generate_summary s now).score =
      ((generate_summary s now).correct_answers : ℚ) /
        ((generate_summary s now).total_questions : ℚ) ∧
    (generate_summary s now).average_time_per_question =
      (generate_summary s now).total_time_seconds / s.responses.length ∧
    (generate_summary s now).completion_rate =
      (s.responses.length : ℚ) / ((generate_summary s now).total_questions : ℚ) ∧
    (∀ now2, generate_summary s now2 =
      { generate_summary s now with duration := (generate_summary s now2).duration }) ∧
    (get_grade (generate_summary s now) =
      if (9 : ℚ)/10 ≤ (generate_summary s now).score then "A"
      else if (8 : ℚ)/10 ≤ (generate_summary s now).score then "B"
      else if (7 : ℚ)/10 ≤ (generate_summary s now).score then "C"
      else if (6 : ℚ)/10 ≤ (generate_summary s now).score then "D"
      else "F") ∧
    (generate_summary egSessionTwoPlusSkip 100).total_questions = 3 ∧
    (generate_summary egSessionTwoPlusSkip 100).correct_answers = 1 ∧
    (generate_summary egSessionTwoPlusSkip 100).completion_rate = 2/3 ∧
    (generate_summary egSessionTwoPlusSkip 100).score = 1/3 ∧
    (generate_summary egSessionTwoPlusSkip 100).average_time_per_question = 37 := by
  refine ⟨rfl, rfl, ?_, ?_, ?_, fun now2 => rfl, rfl, ?_, ?_, ?_, ?_, ?_⟩
  · by_cases h : 0 < s.responses.length + s.skipped_questions.length
    · simp [generate_summary, h]
    · have h0 := Nat.eq_zero_of_not_pos h
      simp [generate_summary, h, h0]
  · by_cases h : s.responses.length = 0
    · simp [generate_summary, h]
    · simp [generate_summary, h]
  · by_cases h : 0 < s.responses.length + s.skipped_questions.length
    · simp [generate_summary, h]
    · have h0 := Nat.eq_zero_of_not_pos h
      simp [generate_summary, h, h0]
  · norm_num [generate_summary, egSessionTwoPlusSkip, egSessionInProgress, egSessionNew]
  · norm_num [generate_summary, egSessionTwoPlusSkip, egSessionInProgress, egSessionNew]
  · norm_num [generate_summary, egSessionTwoPlusSkip, egSessionInProgress, egSessionNew]
  · norm_num [generate_summary, egSessionTwoPlusSkip, egSessionInProgress, egSessionNew]
  · norm_num [generate_summary, egSessionTwoPlusSkip, egSessionInProgress, egSessionNew]

/-- C6 counterexample: not every division in the scoring engine is guarded.
The Adaptive combination divides by `1.0 + total_weight` unguarded, so the
strategy `Adaptive(-1, 0, 0, 0)` on an empty session computes `0.0 / 0.0` —
a NaN in the f32 source, `none` in this embedding.  Likewise the coefficient
of variation `std_dev / mean_time` in the consistency score is an unguarded
division that hits a zero denominator whenever all response times are 0. -/
theorem adaptive_score_hits_unguarded_zero_denominator :
    calculate_score (ScoringStrategy.Adaptive (-1) 0 0 0) egSessionNew [] = none ∧
    consistency_cv [egResponseZeroTime 1, egResponseZeroTime 2] = none := by
  constructor
  · have hd : (1 : ℚ) + (-1 + 0 + 0 + 0) = 0 := by norm_num
    simp only [calculate_score, adaptive_score, fdiv]
    rw [if_pos hd]
  · simp only [consistency_cv, fdiv, egResponseZeroTime, List.map_cons, List.map_nil,
      List.sum_cons, List.sum_nil, List.length_cons, List.length_nil]
    norm_num

theorem map_const_zero_sum {α : Type} (l : List α) : (l.map (fun _ => (0 : ℚ))).sum = 0 := by
  induction l with
  | nil => rfl
  | cons x xs ih => simp [ih]

/-- C6 (amended): Simple, TimeWeighted and DifficultyWeighted scoring and the
summary computation always return defined values, and Adaptive does whenever
`1 + (sum of its four weights) ≠ 0` — the one denominator the source leaves
unguarded on the result path (the consistency score's `std_dev / mean_time`
is also unguarded, but the following `.min(1.0)` maps its NaN back to 1.0).
Empty question/response sets yield 0 for every guarded quotient. -/
theorem scoring_defined_under_weight_guard (strategy : ScoringStrategy)
    (session : QuizSession) (questions : List Question) (now : Timestamp)
    (h : strategy_denominator_ok strategy) :
    (∃ sc, calculate_score strategy session questions = some sc) ∧
    (session.responses = [] → questions = [] →
      (simple_score session questions).raw_score = 0 ∧
      (∀ b p, (time_weighted_score session questions b p).weighted_score = 0) ∧
      (∀ e m hm, (difficulty_weighted_score session questions e m hm).weighted_score = 0) ∧
      (generate_summary session now).score = 0 ∧
      (generate_summary session now).average_time_per_question = 0 ∧
      (generate_summary session now).completion_rate = 0 ∧
      calculate_streak_score session.responses = 0 ∧
      calculate_difficulty_score session questions = 0) := by
  constructor
  · cases strategy with
    | Simple => exact ⟨_, rfl⟩
    | TimeWeighted b p => exact ⟨_, rfl⟩
    | DifficultyWeighted e m hm => exact ⟨_, rfl⟩
    | Adaptive tw dw sw cw =>
        have h2 : 1 + (tw + dw + sw + cw) ≠ 0 := h
        simp only [calculate_score, adaptive_score, fdiv, if_neg h2]
        exact ⟨_, rfl⟩
  · intro hr hq
    refine ⟨?_, ?_, ?_, ?_, ?_, ?_, ?_, ?_⟩
    · simp [simple_score, hq]
    · intro b p
      simp [time_weighted_score, hr, hq]
    · intro e m hm
      simp [difficulty_weighted_score, hr, hq, map_const_zero_sum]
    · simp [generate_summary, hr]
    · simp [generate_summary, hr]
    · simp [generate_summary, hr]
    · simp [calculate_streak_score, hr]
    · simp [calculate_difficulty_score, hr]

/-- C6 witness: a nonnegative-weight Adaptive strategy on a concrete empty
session is defined, and the guarded quotients of that empty session are 0. -/
theorem scoring_defined_under_weight_guard_witness :
    (∃ sc, calculate_score (ScoringStrategy.Adaptive 1 1 1 1) egSessionNew [] = some sc) ∧
    (simple_score egSessionNew []).raw_score = 0 := by
  obtain ⟨h1, h2⟩ := scoring_defined_under_weight_guard
    (ScoringStrategy.Adaptive 1 1 1 1) egSessionNew [] 0 (by norm_num [strategy_denominator_ok])
  exact ⟨h1, (h2 rfl rfl).1⟩

theorem foldl_min_le_init (l : List ℚ) (a : ℚ) : l.foldl min a ≤ a := by
  induction l generalizing a with
  | nil => exact le_refl a
  | cons x xs ih => exact le_trans (ih (min a x)) (min_le_left a x)

theorem foldl_min_le_mem (l : List ℚ) (a x : ℚ) (hx : x ∈ l) : l.foldl min a ≤ x := by
  induction l generalizing a with
  | nil => cases hx
  | cons y ys ih =>
      rcases List.mem_cons.mp hx with h | h
      · subst h
        exact le_trans (foldl_min_le_init ys (min a x)) (min_le_right a x)
      · exact ih (min a y) h

theorem foldl_min_mem_or (l : List ℚ) (a : ℚ) : l.foldl min a = a ∨ l.foldl min a ∈ l := by
  induction l generalizing a with
  | nil => exact Or.inl rfl
  | cons y ys ih =>
      rw [List.foldl_cons]
      rcases ih (min a y) with h | h
      · rcases le_total a y with hay | hya
        · exact Or.inl (by rw [h, min_eq_left hay])
        · exact Or.inr (by rw [h, min_eq_right hya]; exact List.mem_cons_self y ys)
      · exact Or.inr (List.mem_cons_of_mem y h)

theorem foldl_min_one_mem (l : List ℚ) (hne : l ≠ []) (hb : ∀ x ∈ l, x ≤ 1) :
    l.foldl min 1 ∈ l := by
  rcases foldl_min_mem_or l 1 with h | h
  · rcases l with _ | ⟨x, xs⟩
    · exact absurd rfl hne
    · have h1 : (x :: xs).foldl min 1 ≤ x :=
        foldl_min_le_mem (x :: xs) 1 x (List.mem_cons_self x xs)
      have h2 : x ≤ 1 := hb x (List.mem_cons_self x xs)
      have h3 : x = 1 := le_antisymm h2 (h ▸ h1)
      rw [h, ← h3]
      exact List.mem_cons_self x xs
  · exact h

theorem init_le_foldl_max (l : List ℚ) (a : ℚ) : a ≤ l.foldl max a := by
  induction l generalizing a with
  | nil => exact le_refl a
  | cons x xs ih => exact le_trans (le_max_left a x) (ih (max a x))

theorem mem_le_foldl_max (l : List ℚ) (a x : ℚ) (hx : x ∈ l) : x ≤ l.foldl max a := by
  induction l generalizing a with
  | nil => cases hx
  | cons y ys ih =>
      rcases List.mem_cons.mp hx with h | h
      · subst h
        exact le_trans (le_max_right a x) (init_le_foldl_max ys (max a x))
      · exact ih (max a y) h

theorem foldl_max_mem_or (l : List ℚ) (a : ℚ) : l.foldl max a = a ∨ l.foldl max a ∈ l := by
  induction l generalizing a with
  | nil => exact Or.inl rfl
  | cons y ys ih =>
      rw [List.foldl_cons]
      rcases ih (max a y) with h | h
      · rcases le_total a y with hay | hya
        · exact Or.inr (by rw [h, max_eq_right hay]; exact List.mem_cons_self y ys)
        · exact Or.inl (by rw [h, max_eq_left hya])
      · exact Or.inr (List.mem_cons_of_mem y h)

theorem foldl_max_zero_mem (l : List ℚ) (hne : l ≠ []) (hb : ∀ x ∈ l, 0 ≤ x) :
    l.foldl max 0 ∈ l := by
  rcases foldl_max_mem_or l 0 with h | h
  · rcases l with _ | ⟨x, xs⟩
    · exact absurd rfl hne
    · have h1 : x ≤ (x :: xs).foldl max 0 :=
        mem_le_foldl_max (x :: xs) 0 x (List.mem_cons_self x xs)
      have h2 : 0 ≤ x := hb x (List.mem_cons_self x xs)
      have h3 : x = 0 := le_antisymm (h ▸ h1) h2
      rw [h, ← h3]
      exact List.mem_cons_self x xs
  · exact h

theorem update_difficulty_range_consistent (quiz : Quiz)
    (hb : ∀ q ∈ quiz.questions, in_unit_range q) :
    range_consistent (update_difficulty_range quiz) := by
  by_cases he : quiz.questions.isEmpty
  · simp [update_difficulty_range, range_consistent, he]
  · have hne : quiz.questions.map (fun q => q.difficulty) ≠ [] := by
      intro hc
      rw [List.map_eq_nil_iff] at hc
      rw [hc] at he
      exact he rfl
    simp only [update_difficulty_range, range_consistent, he, if_false, Bool.false_eq_true]
    refine ⟨?_, ?_, ?_⟩
    · intro q hq
      exact ⟨foldl_min_le_mem _ 1 q.difficulty (List.mem_map_of_mem _ hq),
        mem_le_foldl_max _ 0 q.difficulty (List.mem_map_of_mem _ hq)⟩
    · have hmem := foldl_min_one_mem (quiz.questions.map (fun q => q.difficulty)) hne
        (by
          intro x hx
          obtain ⟨q, hq, hqx⟩ := List.mem_map.mp hx
          exact hqx ▸ (hb q hq).2)
      obtain ⟨q, hq, hqx⟩ := List.mem_map.mp hmem
      exact ⟨q, hq, hqx⟩
    · have hmem := foldl_max_zero_mem (quiz.questions.map (fun q => q.difficulty)) hne
        (by
          intro x hx
          obtain ⟨q, hq, hqx⟩ := List.mem_map.mp hx
          exact hqx ▸ (hb q hq).1)
      obtain ⟨q, hq, hqx⟩ := List.mem_map.mp hmem
      exact ⟨q, hq, hqx⟩

theorem range_consistent_same_fields (q1 q2 : Quiz) (hq : q2.questions = q1.questions)
    (hr : q2.difficulty_range = q1.difficulty_range) (h : range_consistent q1) :
    range_consistent q2 := by
  unfold range_consistent at h ⊢
  rw [hq, hr]
  exact h

theorem removeFirstById_mem (l : List Question) (id0 : Uuid) (r : Question)
    (rest : List Question) (h : removeFirstById l id0 = some (r, rest)) :
    ∀ x ∈ rest, x ∈ l := by
  induction l generalizing rest with
  | nil => cases h
  | cons y ys ih =>
      rw [removeFirstById] at h
      by_cases hy : y.id = id0
      · rw [if_pos hy] at h
        injection h with hpair
        injection hpair with hr hrest
        subst hrest
        intro x hx
        exact List.mem_cons_of_mem y hx
      · rw [if_neg hy] at h
        rcases hrec : removeFirstById ys id0 with _ | ⟨r2, rest2⟩
        · rw [hrec] at h
          cases h
        · rw [hrec] at h
          injection h with hpair
          injection hpair with hr hrest
          subst hr
          subst hrest
          intro x hx
          rcases List.mem_cons.mp hx with h2 | h2
          · exact h2 ▸ List.mem_cons_self y ys
          · exact List.mem_cons_of_mem y (ih rest2 hrec x h2)

/-- C8: after addQuestion, and after removeQuestion on a range-consistent
quiz, the difficulty range is exactly (min, max) of the current question
difficulties — (0, 1) when the list is empty — provided every difficulty lies
in its documented [0, 1] domain (question.rs:65). -/
theorem difficulty_range_is_min_max (quiz : Quiz) (q : Question) (qid : Uuid) (now : Timestamp)
    (hall : ∀ q2 ∈ quiz.questions, in_unit_range q2) (hq : in_unit_range q) :
    range_consistent (add_question quiz q now) ∧
    (range_consistent quiz → range_consistent (remove_question quiz qid now).2) := by
  constructor
  · have hb : ∀ q2 ∈ quiz.questions ++ [q], in_unit_range q2 := by
      intro q2 hq2
      rcases List.mem_append.mp hq2 with h | h
      · exact hall q2 h
      · rw [List.mem_singleton.mp h]
        exact hq
    by_cases hmem : q.topic_id ∈ quiz.topic_ids
    · have hstep : add_question quiz q now =
          { update_estimated_duration (update_difficulty_range
              { quiz with questions := quiz.questions ++ [q] }) with updated_at := now } := by
        simp [add_question, hmem]
      rw [hstep]
      exact range_consistent_same_fields _ _ rfl rfl
        (update_difficulty_range_consistent _ hb)
    · have hstep : add_question quiz q now =
          { update_estimated_duration (update_difficulty_range
              { quiz with
                topic_ids := quiz.topic_ids ++ [q.topic_id]
                questions := quiz.questions ++ [q] }) with updated_at := now } := by
        simp [add_question, hmem]
      rw [hstep]
      exact range_consistent_same_fields _ _ rfl rfl
        (update_difficulty_range_consistent _ hb)
  · intro hrc
    rcases hfind : removeFirstById quiz.questions qid with _ | ⟨r, rest⟩
    · have hstep : remove_question quiz qid now = (none, quiz) := by
        simp [remove_question, hfind]
      rw [hstep]
      exact hrc
    · have hbrest : ∀ q2 ∈ rest, in_unit_range q2 := fun x hx =>
        hall x (removeFirstById_mem quiz.questions qid r rest hfind x hx)
      have hstep : (remove_question quiz qid now).2 =
          { update_estimated_duration (update_difficulty_range
              { quiz with questions := rest }) with updated_at := now } := by
        simp [remove_question, hfind]
      rw [hstep]
      exact range_consistent_same_fields _ _ rfl rfl
        (update_difficulty_range_consistent _ hbrest)

/-- C8 witness: adding the difficulty-5/10 question to the concrete quiz
holding difficulties 3/10 and 7/10, and removing one from it, both yield a
difficulty range equal to (min, max) of the current difficulties. -/
theorem difficulty_range_is_min_max_witness :
    range_consistent (add_question egQuizTwo egQd5 5) ∧
    (range_consistent egQuizTwo →
      range_consistent (remove_question egQuizTwo 31 5).2) := by
  refine difficulty_range_is_min_max egQuizTwo egQd5 31 5 ?_ ?_
  · intro q2 hq2
    rcases List.mem_cons.mp hq2 with h | h
    · rw [h]
      constructor <;> norm_num [egQd3, egQuestionTF, in_unit_range]
    · rw [List.mem_singleton.mp h]
      constructor <;> norm_num [egQd7, egQuestionTF, in_unit_range]
  · constructor <;> norm_num [egQd5, egQuestionTF, in_unit_range]

theorem removeFirstById_of_not_found (l : List Question) (id0 : Uuid)
    (h : ∀ q ∈ l, q.id ≠ id0) : removeFirstById l id0 = none := by
  induction l with
  | nil => rfl
  | cons y ys ih =>
      rw [removeFirstById, if_neg (h y (List.mem_cons_self y ys)),
        ih (fun q hq => h q (List.mem_cons_of_mem y hq))]

theorem removeFirstById_decomposition (pre : List Question) (qq : Question)
    (post : List Question) (id0 : Uuid) (hpre : ∀ q ∈ pre, q.id ≠ id0) (hqq : qq.id = id0) :
    removeFirstById (pre ++ qq :: post) id0 = some (qq, pre ++ post) := by
  induction pre with
  | nil => simp [removeFirstById, hqq]
  | cons y ys ih =>
      rw [List.cons_append, removeFirstById, if_neg (hpre y (List.mem_cons_self y ys)),
        ih (fun q hq => hpre q (List.mem_cons_of_mem y hq)), List.cons_append]

/-- C9: removeQuestion removes the first question with the matching id, and
returns a not-found result leaving the quiz unchanged when no question
matches; on success it returns the removed question and changes only the
question list, the difficulty range, the duration estimate and the update
timestamp — the topic id set (and every other field) is left untouched, so
the removed question's topic id stays even when nothing else references it. -/
theorem remove_question_first_match_and_frame (quiz : Quiz) (question_id : Uuid)
    (now : Timestamp) :
    ((∀ q ∈ quiz.questions, q.id ≠ question_id) →
      remove_question quiz question_id now = (none, quiz)) ∧
    (∀ pre qq post, quiz.questions = pre ++ qq :: post →
      (∀ q ∈ pre, q.id ≠ question_id) → qq.id = question_id →
      (remove_question quiz question_id now).1 = some qq ∧
      (remove_question quiz question_id now).2.questions = pre ++ post ∧
      (remove_question quiz question_id now).2.topic_ids = quiz.topic_ids ∧
      (remove_question quiz question_id now).2.id = quiz.id ∧
      (remove_question quiz question_id now).2.title = quiz.title ∧
      (remove_question quiz question_id now).2.description = quiz.description ∧
      (remove_question quiz question_id now).2.pass_threshold = quiz.pass_threshold ∧
      (remove_question quiz question_id now).2.allow_skip = quiz.allow_skip ∧
      (remove_question quiz question_id now).2.show_explanations = quiz.show_explanations ∧
      (remove_question quiz question_id now).2.randomize_questions = quiz.randomize_questions ∧
      (remove_question quiz question_id now).2.randomize_options = quiz.randomize_options ∧
      (remove_question quiz question_id now).2.tags = quiz.tags ∧
      (remove_question quiz question_id now).2.metadata = quiz.metadata ∧
      (remove_question quiz question_id now).2.created_at = quiz.created_at ∧
      (remove_question quiz question_id now).2.updated_at = now ∧
      (remove_question quiz question_id now).2.difficulty_range =
        (update_difficulty_range { quiz with questions := pre ++ post }).difficulty_range ∧
      (remove_question quiz question_id now).2.estimated_duration_minutes =
        max (((pre ++ post).map (fun q2 => q2.estimated_time_seconds)).sum / 60) 1) := by
  constructor
  · intro h
    rw [remove_question, removeFirstById_of_not_found quiz.questions question_id h]
  · intro pre qq post hsplit hpre hqq
    have hfound : removeFirstById quiz.questions question_id = some (qq, pre ++ post) := by
      rw [hsplit]
      exact removeFirstById_decomposition pre qq post question_id hpre hqq
    have hstep : remove_question quiz question_id now =
        (some qq, { update_estimated_duration (update_difficulty_range
          { quiz with questions := pre ++ post }) with updated_at := now }) := by
      simp [remove_question, hfound]
    rw [hstep]
    refine ⟨rfl, ?_, ?_, ?_, ?_, ?_, ?_, ?_, ?_, ?_, ?_, ?_, ?_, ?_, rfl, ?_, ?_⟩ <;>
      simp [update_estimated_duration, update_difficulty_range] <;>
      split_ifs <;> simp [List.map_append]

/-- C9 witness: removing the only question of a concrete quiz leaves its
topic id in the topic set although no remaining question references it. -/
theorem remove_question_first_match_and_frame_witness :
    (remove_question egQuizOne 31 5).1 = some egQd3 ∧
    (remove_question egQuizOne 31 5).2.questions = [] ∧
    (remove_question egQuizOne 31 5).2.topic_ids = [5] := by
  obtain ⟨-, h⟩ := remove_question_first_match_and_frame egQuizOne 31 5
  obtain ⟨h1, h2, h3, -⟩ := h [] egQd3 [] rfl (by intro q hq; cases hq) rfl
  exact ⟨h1, h2, h3⟩

end Quizlr
